import Mathlib

/-!
Verification development for the SSOT manager repository: a shallow embedding of
the orchestrator dispatch pipeline (ssot-manager-mag/code/orchestrator.py), the
cross-reference graph engine (crossref-analyzer-sag/code/analyzer.py), the
taxonomy validator (taxonomy-manager-sag/code/taxonomy.py) and the path sandbox
(content-validator-sag/code/validator.py), together with theorems settling the
stated behavioural claims.

Conventions of the embedding:
* Python strings are Lean String values; character-level operations are defined
  over String.data so that proofs can proceed by list induction.
* The filesystem is modelled symlink-free: os.path.realpath is pure path
  normalization, and directory walks are supplied as explicit lists.
* Python dict keys that may be absent are modelled with Option; dict lookups
  with defaults use Option.getD.
* Worker sub-agents invoked through invoke_sag are parameters of the
  orchestrator model (they are separate processes/modules with filesystem
  effects); their result record shapes are taken from the worker sources.
-/

/-- Split a character list at every occurrence of the separator, like the
Python single-character str.split: the result is always nonempty, and empty
segments are kept. -/
def splitOnCharList (sep : Char) : List Char → List (List Char)
  | [] => [[]]
  | c :: cs =>
    match splitOnCharList sep cs with
    | [] => [[]]
    | seg :: segs => if c = sep then [] :: seg :: segs else (c :: seg) :: segs

/-- Split a string on a separator character, returning the segments as strings. -/
def pySplit (sep : Char) (s : String) : List String :=
  (splitOnCharList sep s.data).map (fun l => ⟨l⟩)

/-- One step of the component loop of posixpath.normpath for a relative path:
empty and "." components are dropped; ".." pops the previous component unless
there is none or it is itself ".." (in which case ".." accumulates). -/
def normStep (acc : List String) (comp : String) : List String :=
  if comp = "" ∨ comp = "." then acc
  else if comp = ".." then
    if acc = [] then [".."]
    else if acc.getLast? = some ".." then acc ++ [".."]
    else acc.dropLast
  else acc ++ [comp]

/-- Normalized component list of a relative path (posixpath.normpath). -/
def normComps (comps : List String) : List String := comps.foldl normStep []

/-- One step of the component loop of posixpath.normpath for an absolute path:
".." at the root is simply dropped, so ".." components never accumulate. -/
def absNormStep (acc : List String) (comp : String) : List String :=
  if comp = "" ∨ comp = "." then acc
  else if comp = ".." then acc.dropLast
  else acc ++ [comp]

/-- Normalized component list of an absolute path given by its components. -/
def absNormComps (comps : List String) : List String := comps.foldl absNormStep []

/-- Character data of the slash-joined component list, like the Python
expression sep.join(comps) with sep = "/". -/
def joinCompsData : List String → List Char
  | [] => []
  | [c] => c.data
  | c :: c2 :: rest => c.data ++ '/' :: joinCompsData (c2 :: rest)

/-- Shallow embedding of posixpath.normpath restricted to relative paths
(the code always rejects or strips absolute inputs before normalizing). -/
def normpath (s : String) : String :=
  let r : String := ⟨joinCompsData (normComps (pySplit '/' s))⟩
  if r = "" then "." else r

/-- Python os.path.isabs on POSIX: the path starts with a slash. -/
def pyIsAbs (s : String) : Bool :=
  match s.data with
  | c :: _ => c = '/'
  | [] => false

/-- Python str.startswith ".." : the first two characters are dots. -/
def pyStartsWithDotDot (s : String) : Bool :=
  match s.data with
  | '.' :: '.' :: _ => true
  | _ => false

/-- Python str.startswith with an arbitrary needle, on character lists. -/
def startsWithStr (needle l : List Char) : Bool :=
  l.take needle.length == needle

/-- Python str.endswith with an arbitrary needle, on character lists. -/
def endsWithStr (needle l : List Char) : Bool :=
  List.isSuffixOf needle l

/-- Whitespace characters stripped by Python str.strip with no argument. -/
def isPySpace (c : Char) : Bool :=
  c = ' ' ∨ c = '\t' ∨ c = '\n' ∨ c = '\r' ∨ c = '\x0b' ∨ c = '\x0c'

/-- Python str.strip with no argument, on character lists. -/
def pyStripData (l : List Char) : List Char :=
  ((l.dropWhile isPySpace).reverse.dropWhile isPySpace).reverse

/-- Python str.strip with no argument, on strings. -/
def pyStrip (s : String) : String := ⟨pyStripData s.data⟩

/-- The single-quote character, written by code point to keep source plain. -/
def squoteChar : Char := Char.ofNat 39

/-- The double-quote character, written by code point to keep source plain. -/
def dquoteChar : Char := Char.ofNat 34

/-- Membership in the Python strip-set "single or double quote". -/
def isQuoteChar (c : Char) : Bool := c = squoteChar ∨ c = dquoteChar

/-- Python str.strip applied with the quote characters as the strip set. -/
def stripQuotes (l : List Char) : List Char :=
  ((l.dropWhile isQuoteChar).reverse.dropWhile isQuoteChar).reverse

/-- Python str.lower, modelled for ASCII via Char.toLower. -/
def lowerData (l : List Char) : List Char := l.map Char.toLower

/-- Lexicographic code-point comparison of character lists, the order Python
uses to compare strings. -/
def lexLe : List Char → List Char → Bool
  | [], _ => true
  | _ :: _, [] => false
  | a :: as, b :: bs =>
    if a.toNat < b.toNat then true
    else if b.toNat < a.toNat then false
    else lexLe as bs

/-- The Python string order as a Boolean relation on strings. -/
def strLe (a b : String) : Bool := lexLe a.data b.data

/-- Lexicographic string sort, the embedding of the Python built-in sorted
(a stable sort, as Python guarantees). -/
def sortStrings (l : List String) : List String :=
  List.insertionSort (fun a b => strLe a b = true) l

theorem lexLe_total : ∀ a b, lexLe a b = true ∨ lexLe b a = true
  | [], _ => Or.inl rfl
  | _ :: _, [] => Or.inr rfl
  | a :: as, b :: bs => by
    by_cases h1 : a.toNat < b.toNat
    · exact Or.inl (by simp [lexLe, h1])
    · by_cases h2 : b.toNat < a.toNat
      · exact Or.inr (by simp [lexLe, h2])
      · rcases lexLe_total as bs with h | h
        · exact Or.inl (by simp [lexLe, h1, h2, h])
        · exact Or.inr (by simp [lexLe, h1, h2, h])

theorem lexLe_trans : ∀ a b c, lexLe a b = true → lexLe b c = true → lexLe a c = true
  | [], _, _, _, _ => rfl
  | _ :: _, [], _, h1, _ => by simp [lexLe] at h1
  | _ :: _, _ :: _, [], _, h2 => by simp [lexLe] at h2
  | a :: as, b :: bs, c :: cs, h1, h2 => by
    simp only [lexLe] at h1 h2 ⊢
    rcases Nat.lt_trichotomy a.toNat b.toNat with hab | hab | hab
    · rcases Nat.lt_trichotomy b.toNat c.toNat with hbc | hbc | hbc
      · rw [if_pos (Nat.lt_trans hab hbc)]
      · rw [if_pos (by omega : a.toNat < c.toNat)]
      · rw [if_neg (by omega), if_pos hbc] at h2
        cases h2
    · rw [if_neg (by omega), if_neg (by omega)] at h1
      rcases Nat.lt_trichotomy b.toNat c.toNat with hbc | hbc | hbc
      · rw [if_pos (by omega : a.toNat < c.toNat)]
      · rw [if_neg (by omega), if_neg (by omega)] at h2
        rw [if_neg (by omega), if_neg (by omega)]
        exact lexLe_trans as bs cs h1 h2
      · rw [if_neg (by omega), if_pos hbc] at h2
        cases h2
    · rw [if_neg (by omega), if_pos hab] at h1
      cases h1

namespace Taxonomy

/-- Python str.splitlines restricted to newline-separated text: the empty
string yields no lines, and a trailing newline does not produce a final empty
line. Carriage returns are left on the line (they are removed by the strip
that every consumer applies). -/
def splitlinesData (l : List Char) : List (List Char) :=
  match l with
  | [] => []
  | _ =>
    let segs := splitOnCharList '\n' l
    if segs.getLast? = some [] then segs.dropLast else segs

/-- Embedding of taxonomy._extract_taxonomy_candidates: the per-line state
machine over the front-matter block, collecting lower-cased tag tokens. The
fold state is the pair (in_tags_block, candidates). -/
def tagsStep (st : Bool × List (List Char)) (line : List Char) : Bool × List (List Char) :=
  let in_tags_block := st.1
  let candidates := st.2
  let stripped := pyStripData line
  if startsWithStr "tags:".data stripped then
    let remainder := pyStripData (stripped.drop ("tags:".data.length))
    if startsWithStr "[".data remainder ∧ endsWithStr "]".data remainder then
      let inside := (remainder.drop 1).dropLast
      let parts := (splitOnCharList ',' inside).map (fun part => stripQuotes (pyStripData part))
      (false, candidates ++ (parts.filter (fun term => term ≠ [])).map lowerData)
    else if remainder ≠ [] then
      let token := stripQuotes remainder
      (false, if token ≠ [] then candidates ++ [lowerData token] else candidates)
    else
      (true, candidates)
  else if in_tags_block then
    if startsWithStr "-".data stripped then
      let token := stripQuotes (pyStripData (stripped.drop 1))
      (in_tags_block, if token ≠ [] then candidates ++ [lowerData token] else candidates)
    else if stripped ≠ [] then (false, candidates)
    else (in_tags_block, candidates)
  else (in_tags_block, candidates)

/-- Embedding of taxonomy._extract_taxonomy_candidates: candidate taxonomy
terms from the YAML-style front matter of a document. Content that does not
open with a "---" delimiter line yields no candidates. -/
def _extract_taxonomy_candidates (content : String) : List String :=
  let lines := splitlinesData content.data
  match lines with
  | [] => []
  | first :: rest =>
    if pyStripData first ≠ "---".data then []
    else
      let front_matter := rest.takeWhile (fun line => pyStripData line ≠ "---".data)
      ((front_matter.foldl tagsStep (false, [])).2).map (fun l => (⟨l⟩ : String))

/-- Embedding of taxonomy._find_similar_terms: controlled terms sharing the
first three characters with the candidate, first three of them. The iteration
order over the controlled-term set is modelled by the given list order. -/
def _find_similar_terms (term : String) (controlled_terms : List String) : List String :=
  (controlled_terms.filter (fun candidate => startsWithStr (term.data.take 3) candidate.data)).take 3

/-- One issue record produced by taxonomy._validate_terms. -/
structure TaxIssue where
  term : String
  message : String
  suggestions : List String
deriving Repr, DecidableEq

/-- Embedding of taxonomy._validate_terms: one issue per extracted candidate
that is not in the controlled vocabulary. -/
def _validate_terms (content : String) (controlled_terms : List String) : List TaxIssue :=
  (_extract_taxonomy_candidates content).filterMap (fun term =>
    if term ∈ controlled_terms then none
    else some
      { term := term
        message := (⟨[squoteChar]⟩ : String) ++ term ++ (⟨[squoteChar]⟩ : String)
          ++ " not in controlled vocabulary"
        suggestions := _find_similar_terms term controlled_terms })

/-- Result record of the taxonomy run for operation "validate". -/
structure TaxonomyValidateResult where
  operation : String
  passed : Bool
  issues : List TaxIssue
deriving Repr, DecidableEq

/-- Embedding of the operation = "validate" branch of taxonomy.run, with the
controlled vocabulary (the result of _load_taxonomy, a filesystem read) given
as a parameter. -/
def run_validate (controlled_terms : List String) (content : String) : TaxonomyValidateResult :=
  let issues := _validate_terms content controlled_terms
  { operation := "validate", passed := issues.length == 0, issues := issues }

end Taxonomy

namespace Orchestrator

/-- Payload of a query request (orchestrator reads payload.get("query", {})). -/
structure QueryPayload where
  category : Option String
  topic : Option String
  question : Option String
deriving Repr, DecidableEq

/-- The empty dict default used by payload.get("query", {}). -/
def defaultQueryPayload : QueryPayload :=
  { category := none, topic := none, question := none }

/-- Payload of an update request, the keys the orchestrator reads. -/
structure UpdatePayload where
  operation : Option String
  content : Option String
  target_file : Option String
  branch : Option String
  reason : Option String
deriving Repr, DecidableEq

/-- An incoming orchestrator request: the keys of the request dict that
orchestrator.run and its handlers read. -/
structure RequestPayload where
  request_type : Option String
  query : Option QueryPayload
  update : Option UpdatePayload
  scope : Option String
  validation_scope : Option String
  content : Option String
  target_file : Option String
  category : Option String
  analysis_type : Option String
deriving Repr, DecidableEq

/-- The request-scoped context dict: its two keys, each possibly absent. -/
structure Ctx where
  run_id : Option String
  sags_invoked : Option (List String)
deriving Repr, DecidableEq

/-- One lint record of the content validator (validator._validate_markdown
and validator._check_links); the orchestrator treats these opaquely. -/
structure LintIssue where
  file : String
  line : Option Nat
  message : String
  severity : String
deriving Repr, DecidableEq

/-- Return record of validator.run. -/
structure ValidatorResult where
  passed : Bool
  errors : List LintIssue
  warnings : List LintIssue
  total_files : Nat
deriving Repr, DecidableEq

/-- Payload the orchestrator sends to the content validator. -/
structure ValidatorPayload where
  scope : Option String
  content : Option String
  target_file : Option String
  category : Option String
deriving Repr, DecidableEq

/-- Return record of retriever.run; confidence is a float score the
orchestrator never inspects, modelled opaquely as a numerator out of 100. -/
structure RetrieverResult where
  question : String
  answer : String
  sources : List String
  confidence : Nat
deriving Repr, DecidableEq

/-- Return record of the content updater (module absent from the sources;
shape as consumed by the orchestrator and stated by the response contract). -/
structure UpdaterResult where
  files_modified : List String
  commit_sha : String
  branch : String
  validation_passed : Bool
deriving Repr, DecidableEq

/-- Return record of analyzer.run as consumed by _handle_analyze. -/
structure CrossrefResult where
  orphans : List String
  cycles : List (List String)
deriving Repr, DecidableEq

/-- Return record of the taxonomy analyze operation as consumed by
_handle_analyze. -/
structure TaxonomyAnalyzeResult where
  term_usage : List (String × Nat)
  recommendations : List String
deriving Repr, DecidableEq

/-- The worker sub-agents reachable through invoke_sag, as black-box
functions from the payload the orchestrator sends to the result record each
worker returns. -/
structure Workers where
  retriever : QueryPayload → RetrieverResult
  validator : ValidatorPayload → ValidatorResult
  taxonomyValidate : String → Taxonomy.TaxonomyValidateResult
  updater : UpdatePayload → UpdaterResult
  crossref : CrossrefResult
  taxonomyAnalyze : TaxonomyAnalyzeResult

/-- The data payload attached to update-pipeline failure responses. -/
inductive FailureData where
  | validation_errors (errors : List LintIssue)
  | taxonomy_issues (issues : List Taxonomy.TaxIssue)
deriving Repr, DecidableEq

/-- One finding of the analysis report (two per-worker shapes). -/
inductive Finding where
  | crossref (orphan_count : Nat) (sample_orphans : List String)
      (cycle_count : Nat) (sample_cycles : List (List String))
  | taxonomy (unused_terms : List String) (frequent_terms : List (String × Nat))
deriving Repr, DecidableEq

/-- Body of an analysis_report response. -/
structure AnalysisReport where
  type : String
  findings : List Finding
  recommendations : List String
deriving Repr, DecidableEq

/-- The metadata record run attaches to every response. The timestamp and
duration_ms fields are wall-clock values outside the model. -/
structure Metadata where
  run_id : String
  sags_invoked : List String
deriving Repr, DecidableEq

/-- The uniform response envelope: response_type and status tags plus one
body key per pipeline (the others absent), the optional failure data, and the
metadata attached by run. -/
structure Response where
  response_type : String
  status : String
  answer : Option RetrieverResult
  update_result : Option UpdaterResult
  validation_report : Option ValidatorResult
  analysis_report : Option AnalysisReport
  data : Option FailureData
  metadata : Option Metadata
deriving Repr, DecidableEq

/-- Embedding of orchestrator._build_update_failure_response. -/
def _build_update_failure_response (update_payload : UpdatePayload)
    (validation_passed : Bool) (data : FailureData) : Response :=
  let target_file := update_payload.target_file
  let files_modified : List String :=
    match target_file with
    | some t => if t ≠ "" then [t] else []
    | none => []
  { response_type := "update_result"
    status := "failure"
    answer := none
    update_result := some
      { files_modified := files_modified
        commit_sha := ""
        branch := update_payload.branch.getD ""
        validation_passed := validation_passed }
    validation_report := none
    analysis_report := none
    data := some data
    metadata := none }

/-- A handler result: the response before metadata is attached, the context
after the handler ran, and the ordered trace of workers invoked through
invoke_sag during the handler (the observable delegation sequence). -/
abbrev HandlerResult := Response × Ctx × List String

/-- Embedding of orchestrator._handle_query. -/
def _handle_query (payload : RequestPayload) (ctx : Ctx) (w : Workers) : HandlerResult :=
  let result := w.retriever (payload.query.getD defaultQueryPayload)
  let ctx := { ctx with sags_invoked := some ["content-retriever-sag"] }
  ({ response_type := "answer"
     status := "success"
     answer := some result
     update_result := none
     validation_report := none
     analysis_report := none
     data := none
     metadata := none }, ctx, ["content-retriever-sag"])

/-- Embedding of the tail of orchestrator._handle_update from the taxonomy
delegation on (reached when the validation stage passed or was skipped);
sags_invoked carries the workers already invoked. -/
def _handle_update_tail (update_payload : UpdatePayload) (ctx : Ctx) (w : Workers)
    (sags_invoked : List String) : HandlerResult :=
  let taxonomy_result := w.taxonomyValidate (update_payload.content.getD "")
  let sags_invoked := sags_invoked ++ ["taxonomy-manager-sag"]
  if ¬ taxonomy_result.passed then
    (_build_update_failure_response update_payload true
        (FailureData.taxonomy_issues taxonomy_result.issues),
      { ctx with sags_invoked := some sags_invoked }, sags_invoked)
  else
    let update_result := w.updater update_payload
    let sags_invoked := sags_invoked ++ ["content-updater-sag"]
    ({ response_type := "update_result"
       status := "success"
       answer := none
       update_result := some update_result
       validation_report := none
       analysis_report := none
       data := none
       metadata := none },
      { ctx with sags_invoked := some sags_invoked }, sags_invoked)

/-- Embedding of orchestrator._handle_update: payload["update"] raises a
KeyError when absent; otherwise the staged pipeline runs, short-circuiting on
a failed validation or taxonomy stage. -/
def _handle_update (payload : RequestPayload) (ctx : Ctx) (w : Workers) :
    Except String HandlerResult :=
  match payload.update with
  | none => .error "KeyError: update"
  | some update_payload =>
    let is_delete := update_payload.operation = some "delete"
    if ¬ is_delete then
      let validation_result := w.validator
        { scope := none
          content := update_payload.content
          target_file := update_payload.target_file
          category := none }
      if ¬ validation_result.passed then
        .ok (_build_update_failure_response update_payload false
              (FailureData.validation_errors validation_result.errors),
            { ctx with sags_invoked := some ["content-validator-sag"] },
            ["content-validator-sag"])
      else
        .ok (_handle_update_tail update_payload ctx w ["content-validator-sag"])
    else
      .ok (_handle_update_tail update_payload ctx w [])

/-- Embedding of orchestrator._handle_validate. -/
def _handle_validate (payload : RequestPayload) (ctx : Ctx) (w : Workers) : HandlerResult :=
  let scope : String :=
    match payload.scope with
    | some s => s
    | none => payload.validation_scope.getD "all"
  let validator_payload : ValidatorPayload :=
    { scope := some scope
      content := payload.content
      target_file := payload.target_file
      category := payload.category }
  let result := w.validator validator_payload
  ({ response_type := "validation_report"
     status := if result.passed then "success" else "failure"
     answer := none
     update_result := none
     validation_report := some result
     analysis_report := none
     data := none
     metadata := none },
    { ctx with sags_invoked := some ["content-validator-sag"] },
    ["content-validator-sag"])

/-- Embedding of orchestrator._handle_analyze. The only fatal exit is the
IndexError of the expression cycles[0][0] when the first reported cycle is
an empty list. -/
def _handle_analyze (payload : RequestPayload) (ctx : Ctx) (w : Workers) :
    Except String HandlerResult :=
  let analysis_type := payload.analysis_type.getD "full"
  let crossref_requested :=
    analysis_type = "crossref" ∨ analysis_type = "full" ∨ analysis_type = "orphans"
  let taxonomy_requested := analysis_type = "taxonomy" ∨ analysis_type = "full"
  let step1 : Except String (List String × List Finding × List String) :=
    if crossref_requested then
      let orphans := w.crossref.orphans
      let cycles := w.crossref.cycles
      let findings := [Finding.crossref orphans.length (orphans.take 5)
        cycles.length (cycles.take 3)]
      let recs1 : List String :=
        if orphans ≠ [] then
          ["Review " ++ toString orphans.length ++ " orphan documents (e.g. "
            ++ String.intercalate ", " (orphans.take 3) ++ ")."]
        else []
      if cycles ≠ [] ∧ analysis_type ≠ "orphans" then
        match cycles with
        | (first_node :: _) :: _ =>
          .ok (["crossref-analyzer-sag"], findings,
            recs1 ++ ["Resolve " ++ toString cycles.length
              ++ " circular reference chains (first cycle starts at "
              ++ first_node ++ ")."])
        | _ => .error "IndexError: cycles"
      else
        .ok (["crossref-analyzer-sag"], findings, recs1)
    else
      .ok ([], [], [])
  match step1 with
  | .error e => .error e
  | .ok (sags_invoked, findings, recommendations) =>
    let step2 : List String × List Finding × List String :=
      if taxonomy_requested then
        let term_usage := w.taxonomyAnalyze.term_usage
        let unused_terms := (term_usage.filter (fun tc => tc.2 = 0)).map (fun tc => tc.1)
        let top_terms := (List.insertionSort (fun a b : String × Nat => b.2 ≤ a.2) term_usage).take 5
        (sags_invoked ++ ["taxonomy-manager-sag"],
          findings ++ [Finding.taxonomy (unused_terms.take 5) top_terms],
          recommendations ++ w.taxonomyAnalyze.recommendations)
      else (sags_invoked, findings, recommendations)
    match step2 with
    | (sags_invoked, findings, recommendations) =>
      .ok ({ response_type := "analysis_report"
             status := "success"
             answer := none
             update_result := none
             validation_report := none
             analysis_report := some
               { type := analysis_type
                 findings := findings
                 recommendations := recommendations }
             data := none
             metadata := none },
          { ctx with sags_invoked := some sags_invoked }, sags_invoked)

/-- The if/elif dispatch chain of orchestrator.run: select the handler for
the declared request_type, raising ValueError for an unknown one. -/
def dispatch (request_type : String) (payload : RequestPayload) (ctx : Ctx)
    (w : Workers) : Except String HandlerResult :=
  if request_type = "query" then .ok (_handle_query payload ctx w)
  else if request_type = "update" then _handle_update payload ctx w
  else if request_type = "validate" then .ok (_handle_validate payload ctx w)
  else if request_type = "analyze" then _handle_analyze payload ctx w
  else .error ("Unknown request_type: " ++ request_type)

/-- Embedding of orchestrator.run: dispatch on request_type, then attach the
metadata record (run id and the sags_invoked snapshot read back from the
context). A missing request_type key and an unknown request_type are fatal,
as is any error escaping a handler. -/
def run (payload : RequestPayload) (ctx : Ctx) (w : Workers) :
    Except String HandlerResult :=
  let run_id := ctx.run_id.getD "mag-unknown"
  match payload.request_type with
  | none => .error "KeyError: request_type"
  | some request_type =>
    match dispatch request_type payload ctx w with
    | .error e => .error e
    | .ok (result, ctx2, calls) =>
      let md : Metadata :=
        { run_id := run_id, sags_invoked := ctx2.sags_invoked.getD [] }
      .ok ({ result with metadata := some md }, ctx2, calls)

/-- The response_type the specification assigns to each recognized
request_type. -/
def response_type_for (request_type : String) : String :=
  if request_type = "query" then "answer"
  else if request_type = "update" then "update_result"
  else if request_type = "validate" then "validation_report"
  else if request_type = "analyze" then "analysis_report"
  else ""

end Orchestrator

namespace Analyzer

/-- Characters of a path up to and including the last slash (the head slice
taken by posixpath.dirname before trailing slashes are stripped). -/
def headThroughLastSlash (l : List Char) : List Char :=
  ((l.reverse.dropWhile (fun c => c ≠ '/'))).reverse

/-- Embedding of posixpath.dirname: the head slice through the last slash,
with trailing slashes stripped unless the head is all slashes. -/
def dirname (s : String) : String :=
  let head := headThroughLastSlash s.data
  if head ≠ [] ∧ head.any (fun c => c ≠ '/') then
    ⟨(head.reverse.dropWhile (fun c => c = '/')).reverse⟩
  else ⟨head⟩

/-- Embedding of posixpath.join for two arguments: an absolute second path
wins; otherwise the paths are joined with a slash unless the first is empty
or already ends with one. -/
def pyJoin (a b : String) : String :=
  if pyIsAbs b then b
  else if a = "" ∨ a.data.getLast? = some '/' then a ++ b
  else a ++ "/" ++ b

/-- Attempted match of the Markdown link pattern at a position just after a
literal opening bracket: greedily take the non-bracket link text (nonempty),
expect the closing bracket and opening parenthesis, greedily take the
non-parenthesis target (nonempty), expect the closing parenthesis. Returns
the target and the remaining input after the match. -/
def tryMatchLink (l : List Char) : Option (List Char × List Char) :=
  let text := l.takeWhile (fun c => c ≠ ']')
  if text = [] then none
  else
    match l.drop text.length with
    | ']' :: '(' :: rest2 =>
      let url := rest2.takeWhile (fun c => c ≠ ')')
      if url = [] then none
      else
        match rest2.drop url.length with
        | ')' :: rest3 => some (url, rest3)
        | _ => none
    | _ => none

/-- Left-to-right non-overlapping scan for the Markdown link pattern, the
embedding of re.finditer over the analyzer link regex: on a failed attempt
the scan resumes one character after the opening bracket. Fuel bounds the
recursion by the input length. -/
def scanLinks : Nat → List Char → List (List Char)
  | 0, _ => []
  | _ + 1, [] => []
  | fuel + 1, c :: rest =>
    if c = '[' then
      match tryMatchLink rest with
      | some (url, rest2) => url :: scanLinks fuel rest2
      | none => scanLinks fuel rest
    else scanLinks fuel rest

/-- Embedding of analyzer._extract_references: collect Markdown link targets,
discard absolute URLs (scheme beginning with http), resolve root-relative and
relative targets, strip fragments, and keep only Markdown targets. The Python
set of references is modelled as a duplicate-free list in first-insertion
order. -/
def _extract_references (content : String) (source_file : String) : List String :=
  (scanLinks content.data.length content.data).foldl (fun refs linkData =>
    let link_url : String := ⟨linkData⟩
    if startsWithStr "http".data link_url.data then refs
    else
      let resolved : String :=
        if pyIsAbs link_url then normpath ⟨link_url.data.dropWhile (fun c => c = '/')⟩
        else
          let source_dir := dirname source_file
          normpath (pyJoin source_dir link_url)
      let target_path : String := ⟨resolved.data.takeWhile (fun c => c ≠ '#')⟩
      if endsWithStr ".md".data target_path.data then
        if target_path ∈ refs then refs else refs ++ [target_path]
      else refs) []

/-- Embedding of analyzer._build_reference_graph, with the os.walk result
supplied as the corpus: the list, in walk order, of repository-relative
Markdown paths with their contents. Every walked file is a graph key. -/
def _build_reference_graph (corpus : List (String × String)) : List (String × List String) :=
  corpus.map (fun fc => (fc.1, _extract_references fc.2 fc.1))

/-- Embedding of analyzer._detect_orphans: keys that occur in no reference
set and do not end in README.md. The referenced set is modelled as the
concatenation of all reference lists (membership agrees with the set union). -/
def _detect_orphans (graph : List (String × List String)) : List String :=
  let referenced := graph.foldl (fun acc kv => acc ++ kv.2) []
  (graph.map (fun kv => kv.1)).filter
    (fun path => path ∉ referenced ∧ ¬ endsWithStr "README.md".data path.data)

/-- Reference list of a node in the graph (graph.get(node, set())). -/
def neighborsOf (graph : List (String × List String)) (node : String) : List String :=
  match graph.find? (fun kv => kv.1 = node) with
  | some kv => kv.2
  | none => []

/-- Embedding of the recursive dfs closure of analyzer._detect_cycles. The
triple carried left to right is the shared mutable state (visited, recursion
stack, emitted cycles); the path is copied at each descent as in the source.
Fuel bounds the recursion depth by the number of graph nodes. -/
def dfsAux (graph : List (String × List String)) :
    Nat → String → List String →
    List String × List String × List (List String) →
    List String × List String × List (List String)
  | 0, _, _, st => st
  | fuel + 1, node, path0, (visited, stack, cycles) =>
    let visited := node :: visited
    let stack := node :: stack
    let path := path0 ++ [node]
    let st2 := (neighborsOf graph node).foldl (fun st neighbor =>
      match st with
      | (v, s, cy) =>
        if neighbor ∉ v then dfsAux graph fuel neighbor path (v, s, cy)
        else if neighbor ∈ s then
          let cycle_start := path.indexOf neighbor
          (v, s, cy ++ [path.drop cycle_start ++ [neighbor]])
        else (v, s, cy)) (visited, stack, cycles)
    match st2 with
    | (v, s, cy) => (v, s.erase node, cy)

/-- Embedding of analyzer._detect_cycles: depth-first traversal from every
unvisited node in graph order, emitting one cycle for every edge that closes
onto the current recursion stack. -/
def _detect_cycles (graph : List (String × List String)) : List (List String) :=
  let final := graph.foldl (fun st kv =>
    match st with
    | (visited, stack, cycles) =>
      if kv.1 ∉ visited then dfsAux graph (graph.length + 1) kv.1 [] (visited, stack, cycles)
      else (visited, stack, cycles)) ([], [], [])
  match final with
  | (_, _, cycles) => cycles

/-- Return record of analyzer.run (statistics flattened into fields). -/
structure CrossrefOutput where
  reference_graph : List (String × List String)
  orphans : List String
  cycles : List (List String)
  total_files : Nat
  total_references : Nat
  orphan_count : Nat
deriving Repr, DecidableEq

/-- Embedding of analyzer.run over a supplied corpus walk: build the
reference graph, detect orphans and cycles, and emit the graph with each
reference list sorted and the orphan list sorted. -/
def run (corpus : List (String × String)) : CrossrefOutput :=
  let ref_graph := _build_reference_graph corpus
  let orphans := _detect_orphans ref_graph
  let cycles := _detect_cycles ref_graph
  { reference_graph := ref_graph.map (fun kv => (kv.1, sortStrings kv.2))
    orphans := sortStrings orphans
    cycles := cycles
    total_files := ref_graph.length
    total_references := (ref_graph.map (fun kv => kv.2.length)).foldl (· + ·) 0
    orphan_count := orphans.length }

/-- Final path component of a repository-relative path (the file name). -/
def basename (s : String) : String :=
  ⟨(s.data.reverse.takeWhile (fun c => c ≠ '/')).reverse⟩

/-- Orphan set as the specification words it: never-referenced nodes are
excluded only when the file is literally named README.md (final path
component equal to README.md), and the output is sorted. -/
def specOrphans (graph : List (String × List String)) : List String :=
  let referenced := graph.foldl (fun acc kv => acc ++ kv.2) []
  sortStrings ((graph.map (fun kv => kv.1)).filter
    (fun path => path ∉ referenced ∧ basename path ≠ "README.md"))

end Analyzer

namespace Validator

/-- The canonicalized real path of the repository root joined with a
repository-relative path, in the symlink-free filesystem model: the root is
given by its canonical absolute components, os.path.realpath is absolute-path
normalization. -/
def resolvedComps (repo_root : List String) (path : String) : List String :=
  absNormComps (repo_root ++ pySplit '/' path)

/-- The os.path.commonpath([root, p]) == root test of validator.py, in the
component model: the root components are an initial segment of the
canonicalized components, so p is equal to or nested under the root. -/
def commonpathIsRoot (repo_root : List String) (comps : List String) : Bool :=
  decide (comps.take repo_root.length = repo_root)

/-- Containment of a caller-supplied relative path under the repository root
in the symlink-free model: joining it to the root and canonicalizing lands at
or below the root. -/
def containedUnderRoot (repo_root : List String) (path : String) : Bool :=
  commonpathIsRoot repo_root (resolvedComps repo_root path)

/-- Embedding of validator._resolve_repo_relative_path: reject empty and
absolute targets, normalize, reject a normalization that is empty or "." or
begins with the two characters "..", then check that the canonicalized real
path stays at or below the root; on success return the normalized
repository-relative path. -/
def _resolve_repo_relative_path (repo_root : List String) (target : String) :
    Except String String :=
  if target = "" then .error "target_file is required"
  else if pyIsAbs target then .error "target_file must be relative"
  else
    let normalized := normpath target
    if normalized = "" ∨ normalized = "." then
      .error "target_file must reference content within the repository"
    else if pyStartsWithDotDot normalized then
      .error "target_file escapes repository"
    else if commonpathIsRoot repo_root (resolvedComps repo_root normalized) then
      .ok normalized
    else
      .error "target_file escapes repository"

/-- Embedding of validator._sanitize_category: a category must additionally
be a single path segment (no separator after normalization). -/
def _sanitize_category (category : String) : Except String String :=
  if category = "" then .error "category is required for category-scoped validation"
  else if pyIsAbs category then .error "category must be relative"
  else
    let normalized := normpath category
    if normalized = "" ∨ normalized = "." ∨ pyStartsWithDotDot normalized
        ∨ normalized.data.contains '/' then
      .error "category escapes repository scope"
    else .ok normalized

end Validator

namespace Orchestrator

theorem handle_update_tail_shape (u : UpdatePayload) (ctx : Ctx) (w : Workers)
    (sags : List String) :
    ((_handle_update_tail u ctx w sags).2.1).sags_invoked
        = some ((_handle_update_tail u ctx w sags).2.2) ∧
      (_handle_update_tail u ctx w sags).1.response_type = "update_result" := by
  simp only [_handle_update_tail]
  split <;> simp [_build_update_failure_response]

theorem handle_update_shape (p : RequestPayload) (ctx : Ctx) (w : Workers)
    (r : Response) (c : Ctx) (s : List String)
    (h : _handle_update p ctx w = .ok (r, c, s)) :
    c.sags_invoked = some s ∧ r.response_type = "update_result" := by
  rcases hu : p.update with _ | u
  · simp [_handle_update, hu] at h
  · simp only [_handle_update, hu] at h
    by_cases hd : u.operation = some "delete"
    · rw [if_neg (by simp [hd])] at h
      injection h with h2
      have hc := congrArg (fun t => t.2.1.sags_invoked) h2
      have hs := congrArg (fun t => t.2.2) h2
      have hr := congrArg (fun t => t.1.response_type) h2
      simp only at hc hs hr
      refine ⟨?_, ?_⟩
      · rw [← hc, ← hs]
        exact (handle_update_tail_shape u ctx w []).1
      · rw [← hr]
        exact (handle_update_tail_shape u ctx w []).2
    · rw [if_pos (by simp [hd])] at h
      by_cases hv : (w.validator
          { scope := none, content := u.content,
            target_file := u.target_file, category := none }).passed
      · rw [if_neg (by simp [hv])] at h
        injection h with h2
        have hc := congrArg (fun t => t.2.1.sags_invoked) h2
        have hs := congrArg (fun t => t.2.2) h2
        have hr := congrArg (fun t => t.1.response_type) h2
        simp only at hc hs hr
        refine ⟨?_, ?_⟩
        · rw [← hc, ← hs]
          exact (handle_update_tail_shape u ctx w ["content-validator-sag"]).1
        · rw [← hr]
          exact (handle_update_tail_shape u ctx w ["content-validator-sag"]).2
      · rw [if_pos (by simp [hv])] at h
        simp only [Except.ok.injEq, Prod.mk.injEq] at h
        obtain ⟨h1, h2, h3⟩ := h
        subst h1 h2 h3
        exact ⟨rfl, rfl⟩

theorem handle_analyze_shape (p : RequestPayload) (ctx : Ctx) (w : Workers)
    (r : Response) (c : Ctx) (s : List String)
    (h : _handle_analyze p ctx w = .ok (r, c, s)) :
    c.sags_invoked = some s ∧ r.response_type = "analysis_report" := by
  simp only [_handle_analyze] at h
  repeat' split at h
  all_goals simp only [Except.ok.injEq, Prod.mk.injEq, reduceCtorEq] at h
  all_goals obtain ⟨h1, h2, h3⟩ := h
  all_goals subst h1 h2 h3
  all_goals exact ⟨rfl, rfl⟩

theorem dispatch_shape (rt : String) (p : RequestPayload) (ctx : Ctx) (w : Workers)
    (r : Response) (c : Ctx) (s : List String)
    (h : dispatch rt p ctx w = .ok (r, c, s)) :
    c.sags_invoked = some s ∧ r.response_type = response_type_for rt := by
  by_cases h1 : rt = "query"
  · subst h1
    rw [dispatch, if_pos rfl] at h
    injection h with h2
    have hc := congrArg (fun t => t.2.1.sags_invoked) h2
    have hs := congrArg (fun t => t.2.2) h2
    have hr := congrArg (fun t => t.1.response_type) h2
    simp only at hc hs hr
    refine ⟨?_, ?_⟩
    · rw [← hc, ← hs]
      rfl
    · rw [← hr]
      rfl
  · by_cases h2 : rt = "update"
    · subst h2
      rw [dispatch, if_neg (by decide), if_pos rfl] at h
      have := handle_update_shape p ctx w r c s h
      exact ⟨this.1, this.2⟩
    · by_cases h3 : rt = "validate"
      · subst h3
        rw [dispatch, if_neg (by decide), if_neg (by decide), if_pos rfl] at h
        injection h with h4
        have hc := congrArg (fun t => t.2.1.sags_invoked) h4
        have hs := congrArg (fun t => t.2.2) h4
        have hr := congrArg (fun t => t.1.response_type) h4
        simp only at hc hs hr
        refine ⟨?_, ?_⟩
        · rw [← hc, ← hs]
          rfl
        · rw [← hr]
          rfl
      · by_cases h4 : rt = "analyze"
        · subst h4
          rw [dispatch, if_neg (by decide), if_neg (by decide), if_neg (by decide),
            if_pos rfl] at h
          have := handle_analyze_shape p ctx w r c s h
          exact ⟨this.1, this.2⟩
        · rw [dispatch, if_neg h1, if_neg h2, if_neg h3, if_neg h4] at h
          exact absurd h (by simp)

theorem run_shape (p : RequestPayload) (ctx : Ctx) (w : Workers)
    (r : Response) (c : Ctx) (s : List String)
    (h : run p ctx w = .ok (r, c, s)) :
    c.sags_invoked = some s ∧
      r.metadata = some { run_id := ctx.run_id.getD "mag-unknown", sags_invoked := s } ∧
      (∀ rt, p.request_type = some rt → r.response_type = response_type_for rt) := by
  rcases hrt : p.request_type with _ | rt
  · simp [run, hrt] at h
  · simp only [run, hrt] at h
    rcases hd : dispatch rt p ctx w with e | hr
    · rw [hd] at h
      exact absurd h (by simp)
    · rcases hr with ⟨result, ctx2, calls⟩
      rw [hd] at h
      simp only [Except.ok.injEq, Prod.mk.injEq] at h
      obtain ⟨h1, h2, h3⟩ := h
      subst h1 h2 h3
      obtain ⟨hc, hrt2⟩ := dispatch_shape rt p ctx w result ctx2 calls hd
      refine ⟨hc, ?_, ?_⟩
      · simp [hc]
      · intro rt2 hrt3
        injection hrt3 with h5
        subst h5
        exact hrt2

end Orchestrator

namespace Orchestrator

theorem run_eq_of_dispatch_ok (p : RequestPayload) (ctx : Ctx) (w : Workers)
    (rt : String) (r : Response) (c : Ctx) (s : List String)
    (hrt : p.request_type = some rt) (hd : dispatch rt p ctx w = .ok (r, c, s)) :
    run p ctx w = .ok
      ({ r with metadata := some (Metadata.mk (ctx.run_id.getD "mag-unknown") (c.sags_invoked.getD [])) }, c, s) := by
  simp only [run, hrt, hd]

theorem dispatch_update_eq (p : RequestPayload) (ctx : Ctx) (w : Workers) :
    dispatch "update" p ctx w = _handle_update p ctx w := by
  rw [dispatch, if_neg (by decide), if_pos rfl]

theorem dispatch_analyze_eq (p : RequestPayload) (ctx : Ctx) (w : Workers) :
    dispatch "analyze" p ctx w = _handle_analyze p ctx w := by
  rw [dispatch, if_neg (by decide), if_neg (by decide), if_neg (by decide), if_pos rfl]

theorem handle_update_tail_eq_fail (u : UpdatePayload) (ctx : Ctx) (w : Workers)
    (sags : List String)
    (h : (w.taxonomyValidate (u.content.getD "")).passed = false) :
    _handle_update_tail u ctx w sags =
      (_build_update_failure_response u true
          (FailureData.taxonomy_issues (w.taxonomyValidate (u.content.getD "")).issues),
        { ctx with sags_invoked := some (sags ++ ["taxonomy-manager-sag"]) },
        sags ++ ["taxonomy-manager-sag"]) := by
  simp only [_handle_update_tail]
  rw [if_pos (by simp [h])]

theorem handle_update_tail_eq_pass (u : UpdatePayload) (ctx : Ctx) (w : Workers)
    (sags : List String)
    (h : (w.taxonomyValidate (u.content.getD "")).passed = true) :
    _handle_update_tail u ctx w sags =
      ({ response_type := "update_result"
         status := "success"
         answer := none
         update_result := some (w.updater u)
         validation_report := none
         analysis_report := none
         data := none
         metadata := none },
        { ctx with sags_invoked := some (sags ++ ["taxonomy-manager-sag"] ++ ["content-updater-sag"]) },
        sags ++ ["taxonomy-manager-sag"] ++ ["content-updater-sag"]) := by
  simp only [_handle_update_tail]
  rw [if_neg (by simp [h])]

theorem handle_update_eq_valfail (p : RequestPayload) (ctx : Ctx) (w : Workers)
    (u : UpdatePayload) (hu : p.update = some u)
    (hop : ¬ u.operation = some "delete")
    (hv : (w.validator
        { scope := none, content := u.content
          target_file := u.target_file, category := none }).passed = false) :
    _handle_update p ctx w = .ok
      (_build_update_failure_response u false
          (FailureData.validation_errors (w.validator
            { scope := none, content := u.content
              target_file := u.target_file, category := none }).errors),
        { ctx with sags_invoked := some ["content-validator-sag"] },
        ["content-validator-sag"]) := by
  simp only [_handle_update, hu]
  rw [if_pos (by simp [hop]), if_pos (by simp [hv])]

theorem handle_update_eq_valpass (p : RequestPayload) (ctx : Ctx) (w : Workers)
    (u : UpdatePayload) (hu : p.update = some u)
    (hop : ¬ u.operation = some "delete")
    (hv : (w.validator
        { scope := none, content := u.content
          target_file := u.target_file, category := none }).passed = true) :
    _handle_update p ctx w = .ok (_handle_update_tail u ctx w ["content-validator-sag"]) := by
  simp only [_handle_update, hu]
  rw [if_pos (by simp [hop]), if_neg (by simp [hv])]

theorem handle_update_eq_delete (p : RequestPayload) (ctx : Ctx) (w : Workers)
    (u : UpdatePayload) (hu : p.update = some u)
    (hop : u.operation = some "delete") :
    _handle_update p ctx w = .ok (_handle_update_tail u ctx w []) := by
  simp only [_handle_update, hu]
  rw [if_neg (by simp [hop])]

end Orchestrator

/-- A lint record used by the concrete worker instantiations below. -/
def sampleLint : Orchestrator.LintIssue :=
  { file := "docs/file.md", line := some 1
    message := "Heading level too deep: 7", severity := "error" }

/-- A taxonomy issue record used by the concrete worker instantiations below. -/
def sampleTaxIssue : Taxonomy.TaxIssue :=
  { term := "zzz", message := "zzz not in controlled vocabulary", suggestions := [] }

/-- A concrete worker bundle for evaluating the orchestrator on closed inputs:
the validator fails exactly on content "bad", and the taxonomy validate stage
fails exactly on content "taxbad". -/
def sampleWorkers : Orchestrator.Workers :=
  { retriever := fun _ => { question := "", answer := "", sources := [], confidence := 0 }
    validator := fun p =>
      if p.content = some "bad" then
        { passed := false, errors := [sampleLint], warnings := [], total_files := 1 }
      else { passed := true, errors := [], warnings := [], total_files := 1 }
    taxonomyValidate := fun c =>
      if c = "taxbad" then { operation := "validate", passed := false, issues := [sampleTaxIssue] }
      else { operation := "validate", passed := true, issues := [] }
    updater := fun u =>
      { files_modified := [u.target_file.getD ""], commit_sha := "abc123", branch := "main"
        validation_passed := true }
    crossref := { orphans := [], cycles := [] }
    taxonomyAnalyze := { term_usage := [], recommendations := [] } }

/-- A request payload with every key absent, completed per concrete request. -/
def emptyRequest : Orchestrator.RequestPayload :=
  { request_type := none, query := none, update := none, scope := none
    validation_scope := none, content := none, target_file := none
    category := none, analysis_type := none }

/-- A concrete context carrying only a run id. -/
def sampleCtx : Orchestrator.Ctx := { run_id := some "run-1", sags_invoked := none }

/-- The update payload of the concrete failing update request: its content is
rejected by the sample validator and it carries an explicit branch field. -/
def C2u : Orchestrator.UpdatePayload :=
  { operation := some "add", content := some "bad"
    target_file := some "docs/file.md", branch := some "feature-x", reason := none }

/-- The concrete failing update request used for claim C2. -/
def C2req : Orchestrator.RequestPayload :=
  { emptyRequest with request_type := some "update", update := some C2u }

/-- Claim C2, counterexample: an update request carrying a branch field whose
content fails stage-1 validation is answered with a failure update_result
whose branch equals the payload branch (feature-x), not the empty string the
claim asserts; commit_sha is empty and validation_passed is false as claimed. -/
theorem C2_counterexample :
    (Orchestrator.run C2req sampleCtx sampleWorkers).toOption.map
        (fun r => (r.1.status,
          r.1.update_result.map (fun ur => (ur.validation_passed, ur.commit_sha, ur.branch))))
      = some ("failure", some (false, "", "feature-x")) := by
  rfl

/-- Claim C2, amended: for every update request with operation distinct from
delete whose content the validator reports not passed, run returns an
update_result response with status failure, validation_passed false,
files_modified equal to [target_file] for a present non-empty target_file and
[] otherwise, commit_sha the empty string, and branch equal to the update
payload branch field when present, else the empty string; the failure data
carries the validation errors and only the validator is recorded as invoked. -/
theorem C2_update_validation_failure_response
    (payload : Orchestrator.RequestPayload) (ctx : Orchestrator.Ctx)
    (w : Orchestrator.Workers) (u : Orchestrator.UpdatePayload)
    (hrt : payload.request_type = some "update")
    (hu : payload.update = some u)
    (hop : ¬ u.operation = some "delete")
    (hv : (w.validator { scope := none, content := u.content, target_file := u.target_file, category := none }).passed = false) :
    Orchestrator.run payload ctx w = .ok
      ({ response_type := "update_result"
         status := "failure"
         answer := none
         update_result := some (Orchestrator.UpdaterResult.mk (match u.target_file with | some t => if t ≠ "" then [t] else [] | none => []) "" (u.branch.getD "") false)
         validation_report := none
         analysis_report := none
         data := some (Orchestrator.FailureData.validation_errors (w.validator { scope := none, content := u.content, target_file := u.target_file, category := none }).errors)
         metadata := some (Orchestrator.Metadata.mk (ctx.run_id.getD "mag-unknown") ["content-validator-sag"]) },
       { ctx with sags_invoked := some ["content-validator-sag"] },
       ["content-validator-sag"]) := by
  have hd := Orchestrator.dispatch_update_eq payload ctx w
  rw [Orchestrator.handle_update_eq_valfail payload ctx w u hu hop hv] at hd
  have hr := Orchestrator.run_eq_of_dispatch_ok payload ctx w "update" _ _ _ hrt hd
  rw [hr]
  simp only [Orchestrator._build_update_failure_response]
  rfl

/-- Claim C2, witness: the amended statement evaluated at the concrete
failing update request with a branch field. -/
theorem C2_witness :
    (¬ C2u.operation = some "delete") ∧
    (sampleWorkers.validator { scope := none, content := C2u.content, target_file := C2u.target_file, category := none }).passed = false ∧
    Orchestrator.run C2req sampleCtx sampleWorkers = .ok
      ({ response_type := "update_result"
         status := "failure"
         answer := none
         update_result := some (Orchestrator.UpdaterResult.mk ["docs/file.md"] "" "feature-x" false)
         validation_report := none
         analysis_report := none
         data := some (Orchestrator.FailureData.validation_errors [sampleLint])
         metadata := some (Orchestrator.Metadata.mk "run-1" ["content-validator-sag"]) },
       { sampleCtx with sags_invoked := some ["content-validator-sag"] },
       ["content-validator-sag"]) := by
  refine ⟨by decide, rfl, ?_⟩
  exact C2_update_validation_failure_response C2req sampleCtx sampleWorkers C2u rfl rfl
    (by decide) rfl

/-- The concrete query request used for claim C4. -/
def C4req : Orchestrator.RequestPayload :=
  { emptyRequest with request_type := some "query" }

/-- A context that already carries an entry in sags_invoked before run. -/
def C4prevCtx : Orchestrator.Ctx :=
  { run_id := some "run-1", sags_invoked := some ["previous-sag"] }

/-- Claim C4, counterexample: a query run on a context whose sags_invoked
already contains previous-sag ends with sags_invoked equal to
[content-retriever-sag] only — the pre-existing entry has been removed, so
the context sequence is overwritten, not appended to. -/
theorem C4_counterexample :
    "previous-sag" ∈ C4prevCtx.sags_invoked.getD [] ∧
    (Orchestrator.run C4req C4prevCtx sampleWorkers).toOption.map
        (fun r => r.2.1.sags_invoked) = some (some ["content-retriever-sag"]) :=
  ⟨by decide, rfl⟩

/-- Claim C4, amended: whenever run returns normally, the context sags_invoked
key has been replaced wholesale by exactly the ordered trace of workers
reached during the call (entries present beforehand are discarded), and the
metadata snapshot lists that same trace. -/
theorem C4_sags_invoked_replaced_by_trace
    (payload : Orchestrator.RequestPayload) (ctx : Orchestrator.Ctx)
    (w : Orchestrator.Workers) (resp : Orchestrator.Response)
    (ctx2 : Orchestrator.Ctx) (calls : List String)
    (hok : Orchestrator.run payload ctx w = .ok (resp, ctx2, calls)) :
    ctx2.sags_invoked = some calls ∧
    resp.metadata = some (Orchestrator.Metadata.mk (ctx.run_id.getD "mag-unknown") calls) :=
  ⟨(Orchestrator.run_shape payload ctx w resp ctx2 calls hok).1,
    (Orchestrator.run_shape payload ctx w resp ctx2 calls hok).2.1⟩

/-- The response produced by the concrete C4 query run. -/
def C4resp : Orchestrator.Response :=
  { response_type := "answer", status := "success"
    answer := some (Orchestrator.RetrieverResult.mk "" "" [] 0)
    update_result := none, validation_report := none, analysis_report := none
    data := none
    metadata := some (Orchestrator.Metadata.mk "run-1" ["content-retriever-sag"]) }

/-- The context produced by the concrete C4 query run. -/
def C4ctx2 : Orchestrator.Ctx :=
  { run_id := some "run-1", sags_invoked := some ["content-retriever-sag"] }

/-- Claim C4, witness: the amended statement evaluated at the concrete query
run on the pre-populated context. -/
theorem C4_witness :
    C4ctx2.sags_invoked = some ["content-retriever-sag"] ∧
    C4resp.metadata = some (Orchestrator.Metadata.mk "run-1" ["content-retriever-sag"]) :=
  C4_sags_invoked_replaced_by_trace C4req C4prevCtx sampleWorkers C4resp C4ctx2
    ["content-retriever-sag"] rfl

/-- Claim C5: for every update request with operation distinct from delete
whose content the validator reports not passed, run returns normally with the
invocation trace equal to [content-validator-sag]: the taxonomy manager and
the content updater are never invoked, and the recorded sags_invoked has
length at most one, containing only the validator. -/
theorem C5_validation_failure_invokes_only_validator
    (payload : Orchestrator.RequestPayload) (ctx : Orchestrator.Ctx)
    (w : Orchestrator.Workers) (u : Orchestrator.UpdatePayload)
    (hrt : payload.request_type = some "update")
    (hu : payload.update = some u)
    (hop : ¬ u.operation = some "delete")
    (hv : (w.validator { scope := none, content := u.content, target_file := u.target_file, category := none }).passed = false) :
    ∃ resp ctx2 calls,
      Orchestrator.run payload ctx w = .ok (resp, ctx2, calls) ∧
      calls = ["content-validator-sag"] ∧
      "taxonomy-manager-sag" ∉ calls ∧
      "content-updater-sag" ∉ calls ∧
      ctx2.sags_invoked = some calls ∧
      calls.length ≤ 1 := by
  have hd := Orchestrator.dispatch_update_eq payload ctx w
  rw [Orchestrator.handle_update_eq_valfail payload ctx w u hu hop hv] at hd
  exact ⟨_, _, _, Orchestrator.run_eq_of_dispatch_ok payload ctx w "update" _ _ _ hrt hd,
    rfl, by decide, by decide, rfl, by decide⟩

/-- The update payload of the concrete C5 request (content fails validation). -/
def C5u : Orchestrator.UpdatePayload :=
  { operation := some "add", content := some "bad"
    target_file := some "docs/file.md", branch := none, reason := none }

/-- The concrete failing update request used for claim C5. -/
def C5req : Orchestrator.RequestPayload :=
  { emptyRequest with request_type := some "update", update := some C5u }

/-- Claim C5, witness: the statement evaluated at the concrete failing update
request. -/
theorem C5_witness :
    (¬ C5u.operation = some "delete") ∧
    (sampleWorkers.validator { scope := none, content := C5u.content, target_file := C5u.target_file, category := none }).passed = false ∧
    (∃ resp ctx2 calls,
      Orchestrator.run C5req sampleCtx sampleWorkers = .ok (resp, ctx2, calls) ∧
      calls = ["content-validator-sag"] ∧
      "taxonomy-manager-sag" ∉ calls ∧
      "content-updater-sag" ∉ calls ∧
      ctx2.sags_invoked = some calls ∧
      calls.length ≤ 1) :=
  ⟨by decide, rfl,
    C5_validation_failure_invokes_only_validator C5req sampleCtx sampleWorkers C5u rfl rfl
      (by decide) rfl⟩

/-- Claim C6: for every update request with operation delete, run never
invokes the validator (its name is absent from the trace and therefore from
sags_invoked), while the taxonomy manager is invoked and, whenever its check
passes, the content updater is invoked as well. -/
theorem C6_delete_skips_validator
    (payload : Orchestrator.RequestPayload) (ctx : Orchestrator.Ctx)
    (w : Orchestrator.Workers) (u : Orchestrator.UpdatePayload)
    (hrt : payload.request_type = some "update")
    (hu : payload.update = some u)
    (hop : u.operation = some "delete") :
    ∃ resp ctx2 calls,
      Orchestrator.run payload ctx w = .ok (resp, ctx2, calls) ∧
      ctx2.sags_invoked = some calls ∧
      "content-validator-sag" ∉ calls ∧
      "taxonomy-manager-sag" ∈ calls ∧
      ((w.taxonomyValidate (u.content.getD "")).passed = true →
        "content-updater-sag" ∈ calls) := by
  have hd := Orchestrator.dispatch_update_eq payload ctx w
  rw [Orchestrator.handle_update_eq_delete payload ctx w u hu hop] at hd
  by_cases ht : (w.taxonomyValidate (u.content.getD "")).passed
  · rw [Orchestrator.handle_update_tail_eq_pass u ctx w [] ht] at hd
    exact ⟨_, _, _, Orchestrator.run_eq_of_dispatch_ok payload ctx w "update" _ _ _ hrt hd,
      rfl, by decide, by decide, fun _ => by decide⟩
  · rw [Orchestrator.handle_update_tail_eq_fail u ctx w [] (by simpa using ht)] at hd
    exact ⟨_, _, _, Orchestrator.run_eq_of_dispatch_ok payload ctx w "update" _ _ _ hrt hd,
      rfl, by decide, by decide, fun hc => absurd hc (by simpa using ht)⟩

/-- The update payload of the concrete C6 delete request. -/
def C6u : Orchestrator.UpdatePayload :=
  { operation := some "delete", content := none
    target_file := some "docs/file.md", branch := none, reason := some "obsolete" }

/-- The concrete delete update request used for claim C6. -/
def C6req : Orchestrator.RequestPayload :=
  { emptyRequest with request_type := some "update", update := some C6u }

/-- Claim C6, witness: the statement evaluated at the concrete delete
request. -/
theorem C6_witness :
    C6req.update = some C6u ∧
    C6u.operation = some "delete" ∧
    (∃ resp ctx2 calls,
      Orchestrator.run C6req sampleCtx sampleWorkers = .ok (resp, ctx2, calls) ∧
      ctx2.sags_invoked = some calls ∧
      "content-validator-sag" ∉ calls ∧
      "taxonomy-manager-sag" ∈ calls ∧
      ((sampleWorkers.taxonomyValidate (C6u.content.getD "")).passed = true →
        "content-updater-sag" ∈ calls)) :=
  ⟨rfl, rfl, C6_delete_skips_validator C6req sampleCtx sampleWorkers C6u rfl rfl rfl⟩

/-- Claim C8: for every request whose declared request_type is one of the
four recognized values, any normally returned response carries the
response_type determined by the request_type alone (query to answer, update
to update_result, validate to validation_report, analyze to analysis_report),
whether the pipeline outcome was success or failure. -/
theorem C8_response_type_determined_by_request_type
    (payload : Orchestrator.RequestPayload) (ctx : Orchestrator.Ctx)
    (w : Orchestrator.Workers) (rt : String)
    (hrt : payload.request_type = some rt)
    (_hrec : rt = "query" ∨ rt = "update" ∨ rt = "validate" ∨ rt = "analyze")
    (resp : Orchestrator.Response) (ctx2 : Orchestrator.Ctx) (calls : List String)
    (hok : Orchestrator.run payload ctx w = .ok (resp, ctx2, calls)) :
    resp.response_type = Orchestrator.response_type_for rt :=
  (Orchestrator.run_shape payload ctx w resp ctx2 calls hok).2.2 rt hrt

/-- The concrete query request used for claim C8. -/
def C8req : Orchestrator.RequestPayload :=
  { emptyRequest with request_type := some "query" }

/-- The response produced by the concrete C8 query run. -/
def C8resp : Orchestrator.Response :=
  { response_type := "answer", status := "success"
    answer := some (Orchestrator.RetrieverResult.mk "" "" [] 0)
    update_result := none, validation_report := none, analysis_report := none
    data := none
    metadata := some (Orchestrator.Metadata.mk "run-1" ["content-retriever-sag"]) }

/-- The context produced by the concrete C8 query run. -/
def C8ctx2 : Orchestrator.Ctx :=
  { run_id := some "run-1", sags_invoked := some ["content-retriever-sag"] }

/-- Claim C8, witness: the statement evaluated at the concrete query run. -/
theorem C8_witness :
    C8resp.response_type = Orchestrator.response_type_for "query" :=
  C8_response_type_determined_by_request_type C8req sampleCtx sampleWorkers "query" rfl
    (Or.inl rfl) C8resp C8ctx2 ["content-retriever-sag"] rfl

/-- Claim C10: for an analyze request, a missing analysis_type behaves
exactly as analysis_type full, and any analysis_type outside crossref,
orphans, taxonomy and full invokes no worker and still returns normally an
analysis_report response with status success, empty findings and empty
recommendations. -/
theorem C10_unrecognized_analysis_type_empty_success
    (payload : Orchestrator.RequestPayload) (ctx : Orchestrator.Ctx)
    (w : Orchestrator.Workers)
    (hrt : payload.request_type = some "analyze") :
    (payload.analysis_type = none →
      Orchestrator.run payload ctx w =
        Orchestrator.run { payload with analysis_type := some "full" } ctx w) ∧
    (∀ t, payload.analysis_type = some t →
      t ≠ "crossref" → t ≠ "orphans" → t ≠ "taxonomy" → t ≠ "full" →
      Orchestrator.run payload ctx w = .ok
        ({ response_type := "analysis_report"
           status := "success"
           answer := none
           update_result := none
           validation_report := none
           analysis_report := some (Orchestrator.AnalysisReport.mk t [] [])
           data := none
           metadata := some (Orchestrator.Metadata.mk (ctx.run_id.getD "mag-unknown") []) },
         { ctx with sags_invoked := some [] }, [])) := by
  constructor
  · intro hat
    have h3 : Orchestrator._handle_analyze { payload with analysis_type := some "full" } ctx w =
        Orchestrator._handle_analyze payload ctx w := by
      simp only [Orchestrator._handle_analyze, hat]
      rfl
    generalize hgen : ({ payload with analysis_type := some "full" } : Orchestrator.RequestPayload) = payload2
    have h2 : payload2.request_type = some "analyze" := by
      rw [← hgen]
      exact hrt
    have h3b : Orchestrator._handle_analyze payload2 ctx w =
        Orchestrator._handle_analyze payload ctx w := by
      rw [← hgen]
      exact h3
    rcases hres : Orchestrator._handle_analyze payload ctx w with e | hr
    · have hdl : Orchestrator.dispatch "analyze" payload ctx w = .error e := by
        rw [Orchestrator.dispatch_analyze_eq, hres]
      have hdr : Orchestrator.dispatch "analyze" payload2 ctx w = .error e := by
        rw [Orchestrator.dispatch_analyze_eq, h3b, hres]
      simp only [Orchestrator.run, hrt, h2, hdl, hdr]
    · have hdl : Orchestrator.dispatch "analyze" payload ctx w = .ok hr := by
        rw [Orchestrator.dispatch_analyze_eq, hres]
      have hdr : Orchestrator.dispatch "analyze" payload2 ctx w = .ok hr := by
        rw [Orchestrator.dispatch_analyze_eq, h3b, hres]
      simp only [Orchestrator.run, hrt, h2, hdl, hdr]
  · intro t hat h1 h2 h3 h4
    have he : Orchestrator._handle_analyze payload ctx w = .ok
        ({ response_type := "analysis_report"
           status := "success"
           answer := none
           update_result := none
           validation_report := none
           analysis_report := some (Orchestrator.AnalysisReport.mk t [] [])
           data := none
           metadata := none },
         { ctx with sags_invoked := some [] }, []) := by
      simp only [Orchestrator._handle_analyze, hat, Option.getD_some]
      rw [if_neg (by simp [h1, h4, h2])]
      simp [h3, h4]
    have hd := Orchestrator.dispatch_analyze_eq payload ctx w
    rw [he] at hd
    have hr := Orchestrator.run_eq_of_dispatch_ok payload ctx w "analyze" _ _ _ hrt hd
    rw [hr]
    rfl

/-- The concrete analyze request with a bogus analysis_type used for C10. -/
def C10req : Orchestrator.RequestPayload :=
  { emptyRequest with request_type := some "analyze", analysis_type := some "bogus" }

/-- Claim C10, witness: the statement evaluated at the concrete analyze
request with the unrecognized analysis_type bogus. -/
theorem C10_witness :
    C10req.analysis_type = some "bogus" ∧
    Orchestrator.run C10req sampleCtx sampleWorkers = .ok
      ({ response_type := "analysis_report"
         status := "success"
         answer := none
         update_result := none
         validation_report := none
         analysis_report := some (Orchestrator.AnalysisReport.mk "bogus" [] [])
         data := none
         metadata := some (Orchestrator.Metadata.mk "run-1" []) },
       { sampleCtx with sags_invoked := some [] }, []) :=
  ⟨rfl, (C10_unrecognized_analysis_type_empty_success C10req sampleCtx sampleWorkers rfl).2
      "bogus" rfl (by decide) (by decide) (by decide) (by decide)⟩

/-- The two-file corpus in which a.md links to b.md and b.md links nowhere. -/
def corpusAB : List (String × String) :=
  [("a.md", "[Link](b.md)"), ("b.md", "# Heading")]

/-- The two-file corpus in which a.md links to b.md and b.md links back. -/
def corpusABA : List (String × String) :=
  [("a.md", "[Link](b.md)"), ("b.md", "[Back](a.md)")]

/-- Claim C1, counterexample: in the two-file corpus where A links to B and B
links to nothing, A itself is never referenced, so the engine returns the
orphans list [a.md], not the empty list the claim asserts (the repository
test suite likewise expects a non-empty orphans list on this corpus). -/
theorem C1_counterexample :
    (Analyzer.run corpusAB).orphans = ["a.md"] ∧ ["a.md"] ≠ ([] : List String) :=
  ⟨rfl, by decide⟩

/-- Claim C1, amended: for the corpus A links-to B, the node set is exactly
{a.md, b.md} and the orphans list is [a.md] (B is referenced, A is not); if
additionally B links back to A, the orphans list is empty and exactly one
cycle is reported, containing both A and B. -/
theorem C1_two_file_corpus_graph_engine :
    ((Analyzer.run corpusAB).reference_graph.map (fun kv => kv.1) = ["a.md", "b.md"] ∧
      (Analyzer.run corpusAB).orphans = ["a.md"] ∧
      (Analyzer.run corpusAB).cycles = []) ∧
    ((Analyzer.run corpusABA).reference_graph.map (fun kv => kv.1) = ["a.md", "b.md"] ∧
      (Analyzer.run corpusABA).orphans = [] ∧
      (Analyzer.run corpusABA).cycles = [["a.md", "b.md", "a.md"]] ∧
      (Analyzer.run corpusABA).cycles.length = 1 ∧
      "a.md" ∈ (Analyzer.run corpusABA).cycles.headD [] ∧
      "b.md" ∈ (Analyzer.run corpusABA).cycles.headD []) :=
  ⟨⟨rfl, rfl, rfl⟩, ⟨rfl, rfl, rfl, rfl, by decide, by decide⟩⟩

/-- A one-node graph whose only file ends in, but is not named, README.md. -/
def C3graph : List (String × List String) := [("notes/projectREADME.md", [])]

/-- Claim C3, counterexample: the unreferenced node notes/projectREADME.md is
not literally named README.md, so under the claim it must appear in the
orphans list (as the specification-worded specOrphans shows), yet the engine
suppresses it because its path merely ends with the string README.md. -/
theorem C3_counterexample :
    Analyzer.basename "notes/projectREADME.md" ≠ "README.md" ∧
    Analyzer.specOrphans C3graph = ["notes/projectREADME.md"] ∧
    Analyzer._detect_orphans C3graph = [] ∧
    (Analyzer.run [("notes/projectREADME.md", "")]).orphans = [] ∧
    sortStrings (Analyzer._detect_orphans C3graph) ≠ Analyzer.specOrphans C3graph :=
  ⟨by decide, rfl, rfl, rfl, by decide⟩

/-- Claim C3, amended: the orphans list returned by the graph engine is the
lexicographically sorted list of the graph nodes that appear as no edge's
target and whose path does not end with the string README.md (so not only
files literally named README.md are excluded: any path with that suffix,
such as projectREADME.md, is suppressed too); when the corpus paths are
distinct the list holds each such node exactly once. -/
theorem C3_orphans_characterization (corpus : List (String × String))
    (hnd : (corpus.map (fun fc => fc.1)).Nodup) :
    List.Pairwise (fun a b => strLe a b = true) (Analyzer.run corpus).orphans ∧
    (Analyzer.run corpus).orphans.Nodup ∧
    (∀ p, p ∈ (Analyzer.run corpus).orphans ↔
      (p ∈ (Analyzer._build_reference_graph corpus).map (fun kv => kv.1) ∧
        p ∉ (Analyzer._build_reference_graph corpus).foldl (fun acc kv => acc ++ kv.2) [] ∧
        ¬ endsWithStr "README.md".data p.data)) := by
  have hrun : (Analyzer.run corpus).orphans =
      sortStrings (Analyzer._detect_orphans (Analyzer._build_reference_graph corpus)) := rfl
  have hperm := List.perm_insertionSort (fun a b : String => strLe a b = true)
    (Analyzer._detect_orphans (Analyzer._build_reference_graph corpus))
  refine ⟨?_, ?_, ?_⟩
  · rw [hrun]
    exact @List.sorted_insertionSort String (fun a b => strLe a b = true) _
      ⟨fun a b => lexLe_total a.data b.data⟩
      ⟨fun a b c h1 h2 => lexLe_trans a.data b.data c.data h1 h2⟩
      (Analyzer._detect_orphans (Analyzer._build_reference_graph corpus))
  · rw [hrun]
    unfold sortStrings
    rw [hperm.nodup_iff]
    refine List.Nodup.filter _ ?_
    simpa [Analyzer._build_reference_graph, List.map_map, Function.comp] using hnd
  · intro p
    rw [hrun]
    unfold sortStrings
    rw [hperm.mem_iff]
    simp only [Analyzer._detect_orphans, List.mem_filter, decide_eq_true_iff]

/-- Claim C3, witness: the characterization evaluated on the concrete
two-file corpus A links-to B. -/
theorem C3_witness :
    (((corpusAB.map (fun fc => fc.1)).Nodup) ∧
      List.Pairwise (fun a b => strLe a b = true) (Analyzer.run corpusAB).orphans ∧
      (Analyzer.run corpusAB).orphans.Nodup ∧
      ("a.md" ∈ (Analyzer.run corpusAB).orphans ↔
        ("a.md" ∈ (Analyzer._build_reference_graph corpusAB).map (fun kv => kv.1) ∧
          "a.md" ∉ (Analyzer._build_reference_graph corpusAB).foldl (fun acc kv => acc ++ kv.2) [] ∧
          ¬ endsWithStr "README.md".data "a.md".data))) :=
  ⟨by decide,
    (C3_orphans_characterization corpusAB (by decide)).1,
    (C3_orphans_characterization corpusAB (by decide)).2.1,
    (C3_orphans_characterization corpusAB (by decide)).2.2 "a.md"⟩

namespace Taxonomy

/-- The front-matter guard of _extract_taxonomy_candidates: true exactly when
the content has a first line that strips to the "---" delimiter. -/
def beginsWithFrontMatter (content : String) : Bool :=
  match splitlinesData content.data with
  | [] => false
  | first :: _ => pyStripData first == "---".data

end Taxonomy

/-- Claim C9: for every content string that does not open with a front-matter
delimiter line (including the empty string), the taxonomy validate operation
extracts no candidate terms and reports passed with no issues; consequently,
in any update run whose taxonomy worker is this taxonomy validator and whose
update content is such a string, reaching the taxonomy stage always leads on
to the content updater — the pipeline never stops at taxonomy. -/
theorem C9_no_front_matter_taxonomy_passes
    (terms : List String) (content : String)
    (hfm : Taxonomy.beginsWithFrontMatter content = false) :
    Taxonomy._extract_taxonomy_candidates content = [] ∧
    Taxonomy.run_validate terms content =
      { operation := "validate", passed := true, issues := [] } ∧
    (∀ (payload : Orchestrator.RequestPayload) (ctx : Orchestrator.Ctx)
        (w : Orchestrator.Workers) (u : Orchestrator.UpdatePayload)
        (resp : Orchestrator.Response) (ctx2 : Orchestrator.Ctx) (calls : List String),
      w.taxonomyValidate = Taxonomy.run_validate terms →
      payload.request_type = some "update" →
      payload.update = some u →
      u.content.getD "" = content →
      Orchestrator.run payload ctx w = .ok (resp, ctx2, calls) →
      "taxonomy-manager-sag" ∈ calls →
      "content-updater-sag" ∈ calls) := by
  have hex : Taxonomy._extract_taxonomy_candidates content = [] := by
    have hfm2 := hfm
    unfold Taxonomy.beginsWithFrontMatter at hfm2
    rcases hl : Taxonomy.splitlinesData content.data with _ | ⟨first, rest⟩
    · unfold Taxonomy._extract_taxonomy_candidates
      simp [hl]
    · rw [hl] at hfm2
      rw [beq_eq_false_iff_ne] at hfm2
      unfold Taxonomy._extract_taxonomy_candidates
      simp [hl, hfm2]
  have hval : Taxonomy.run_validate terms content =
      { operation := "validate", passed := true, issues := [] } := by
    unfold Taxonomy.run_validate Taxonomy._validate_terms
    rw [hex]
    rfl
  refine ⟨hex, hval, ?_⟩
  intro payload ctx w u resp ctx2 calls hw hrt hu hc hok hmem
  have hpass : (w.taxonomyValidate (u.content.getD "")).passed = true := by
    rw [hw, hc, hval]
  by_cases hop : u.operation = some "delete"
  · have hd := Orchestrator.dispatch_update_eq payload ctx w
    rw [Orchestrator.handle_update_eq_delete payload ctx w u hu hop,
      Orchestrator.handle_update_tail_eq_pass u ctx w [] hpass] at hd
    have hr := Orchestrator.run_eq_of_dispatch_ok payload ctx w "update" _ _ _ hrt hd
    rw [hr] at hok
    injection hok with h2
    have hcalls := congrArg (fun t => t.2.2) h2
    simp only at hcalls
    rw [← hcalls]
    decide
  · by_cases hv : (w.validator { scope := none, content := u.content, target_file := u.target_file, category := none }).passed
    · have hd := Orchestrator.dispatch_update_eq payload ctx w
      rw [Orchestrator.handle_update_eq_valpass payload ctx w u hu hop hv,
        Orchestrator.handle_update_tail_eq_pass u ctx w ["content-validator-sag"] hpass] at hd
      have hr := Orchestrator.run_eq_of_dispatch_ok payload ctx w "update" _ _ _ hrt hd
      rw [hr] at hok
      injection hok with h2
      have hcalls := congrArg (fun t => t.2.2) h2
      simp only at hcalls
      rw [← hcalls]
      decide
    · have hd := Orchestrator.dispatch_update_eq payload ctx w
      rw [Orchestrator.handle_update_eq_valfail payload ctx w u hu hop
        (by simpa using hv)] at hd
      have hr := Orchestrator.run_eq_of_dispatch_ok payload ctx w "update" _ _ _ hrt hd
      rw [hr] at hok
      injection hok with h2
      have hcalls := congrArg (fun t => t.2.2) h2
      simp only at hcalls
      rw [← hcalls] at hmem
      exact absurd hmem (by decide)

/-- The controlled vocabulary of the concrete C9 instantiation. -/
def C9terms : List String := ["alpha"]

/-- A content string with no front matter, used for claim C9. -/
def C9content : String := "no front matter here"

/-- The worker bundle whose taxonomy stage is the real taxonomy validator. -/
def C9workers : Orchestrator.Workers :=
  { sampleWorkers with taxonomyValidate := Taxonomy.run_validate C9terms }

/-- The update payload of the concrete C9 update request. -/
def C9u : Orchestrator.UpdatePayload :=
  { operation := some "add", content := some C9content
    target_file := some "docs/new.md", branch := none, reason := none }

/-- The concrete update request used for claim C9. -/
def C9req : Orchestrator.RequestPayload :=
  { emptyRequest with request_type := some "update", update := some C9u }

/-- The response of the concrete C9 update run. -/
def C9resp : Orchestrator.Response :=
  { response_type := "update_result", status := "success"
    answer := none
    update_result := some (Orchestrator.UpdaterResult.mk ["docs/new.md"] "abc123" "main" true)
    validation_report := none, analysis_report := none, data := none
    metadata := some (Orchestrator.Metadata.mk "run-1"
      ["content-validator-sag", "taxonomy-manager-sag", "content-updater-sag"]) }

/-- The context of the concrete C9 update run. -/
def C9ctx2 : Orchestrator.Ctx :=
  { run_id := some "run-1"
    sags_invoked := some ["content-validator-sag", "taxonomy-manager-sag", "content-updater-sag"] }

/-- Claim C9, witness: the statement evaluated at the concrete
no-front-matter update request driven through the real taxonomy validator. -/
theorem C9_witness :
    Taxonomy.beginsWithFrontMatter C9content = false ∧
    Taxonomy._extract_taxonomy_candidates C9content = [] ∧
    "content-updater-sag" ∈
      (["content-validator-sag", "taxonomy-manager-sag", "content-updater-sag"] : List String) :=
  ⟨rfl, (C9_no_front_matter_taxonomy_passes C9terms C9content rfl).1,
    (C9_no_front_matter_taxonomy_passes C9terms C9content rfl).2.2 C9req sampleCtx C9workers
      C9u C9resp C9ctx2
      ["content-validator-sag", "taxonomy-manager-sag", "content-updater-sag"]
      rfl rfl rfl rfl rfl (by decide)⟩

theorem splitOnCharList_ne_nil (sep : Char) (l : List Char) :
    splitOnCharList sep l ≠ [] := by
  cases l with
  | nil => simp [splitOnCharList]
  | cons c cs =>
    simp only [splitOnCharList]
    split
    · simp
    · split <;> simp

theorem splitOnCharList_noslash (sep : Char) :
    ∀ l seg, seg ∈ splitOnCharList sep l → sep ∉ seg := by
  intro l
  induction l with
  | nil =>
    intro seg hm
    simp only [splitOnCharList, List.mem_singleton] at hm
    simp [hm]
  | cons c cs ih =>
    intro seg hm
    rcases h : splitOnCharList sep cs with _ | ⟨seg2, segs⟩
    · exact absurd h (splitOnCharList_ne_nil sep cs)
    · simp only [splitOnCharList, h] at hm
      by_cases hc : c = sep
      · rw [if_pos hc] at hm
        rw [List.mem_cons] at hm
        rcases hm with hm | hm
        · simp [hm]
        · exact ih seg (by rw [h]; exact hm)
      · rw [if_neg hc] at hm
        rw [List.mem_cons] at hm
        rcases hm with hm | hm
        · subst hm
          intro hmem
          rw [List.mem_cons] at hmem
          rcases hmem with hmem | hmem
          · exact hc hmem.symm
          · exact ih seg2 (by rw [h]; exact List.mem_cons_self seg2 segs) hmem
        · exact ih seg (by rw [h]; exact List.mem_cons_of_mem seg2 hm)

theorem splitOnCharList_of_noslash (sep : Char) :
    ∀ d : List Char, sep ∉ d → splitOnCharList sep d = [d] := by
  intro d
  induction d with
  | nil => intro _; rfl
  | cons c cs ih =>
    intro hns
    simp only [splitOnCharList, ih (fun h => hns (List.mem_cons_of_mem c h))]
    rw [if_neg (fun h2 : c = sep => hns (List.mem_cons.mpr (Or.inl h2.symm)))]

theorem splitOnCharList_append (sep : Char) :
    ∀ d e : List Char, sep ∉ d →
      splitOnCharList sep (d ++ sep :: e) = d :: splitOnCharList sep e := by
  intro d
  induction d with
  | nil =>
    intro e _
    rcases h : splitOnCharList sep e with _ | ⟨seg, segs⟩
    · exact absurd h (splitOnCharList_ne_nil sep e)
    · simp only [List.nil_append, splitOnCharList, h]
      simp
  | cons c cs ih =>
    intro e hns
    simp only [List.cons_append, splitOnCharList, List.append_eq,
      ih e (fun h => hns (List.mem_cons_of_mem c h))]
    rw [if_neg (fun h2 : c = sep => hns (List.mem_cons.mpr (Or.inl h2.symm)))]

/-- Invariant of the normpath component loop: every accumulated component is
nonempty, is not the dot component, contains no slash, and all parent-dir
components stand at the front of the list. -/
structure NormInv (l : List String) : Prop where
  clean : ∀ c ∈ l, c ≠ "" ∧ c ≠ "."
  noslash : ∀ c ∈ l, ∀ ch ∈ c.data, ch ≠ '/'
  dots : ∃ k rest, l = List.replicate k ".." ++ rest ∧ ∀ c ∈ rest, c ≠ ".."

theorem normInv_nil : NormInv [] :=
  ⟨by simp, by simp, ⟨0, [], by simp, by simp⟩⟩

theorem dotdot_rest_nil (k : Nat) (rest : List String)
    (hrest : ∀ c ∈ rest, c ≠ "..")
    (hlast : (List.replicate k ".." ++ rest).getLast? = some "..") : rest = [] := by
  rcases hr : rest with _ | ⟨r0, rs⟩
  · rfl
  · exfalso
    subst hr
    rw [List.getLast?_append] at hlast
    have hne : (r0 :: rs) ≠ [] := by simp
    rw [List.getLast?_eq_getLast (r0 :: rs) hne] at hlast
    simp only [Option.or_some, Option.some.injEq] at hlast
    exact hrest _ (List.getLast_mem hne) hlast

theorem normInv_append_dotdot (l : List String) (hinv : NormInv l)
    (hlast : l = [] ∨ l.getLast? = some "..") : NormInv (l ++ [".."]) := by
  obtain ⟨k, rest, heq, hrest⟩ := hinv.dots
  refine ⟨?_, ?_, ?_⟩
  · intro c hc
    rcases List.mem_append.mp hc with hc | hc
    · exact hinv.clean c hc
    · simp only [List.mem_singleton] at hc
      subst hc
      exact ⟨by decide, by decide⟩
  · intro c hc
    rcases List.mem_append.mp hc with hc | hc
    · exact hinv.noslash c hc
    · simp only [List.mem_singleton] at hc
      subst hc
      decide
  · rcases hlast with hnil | hlast
    · subst hnil
      exact ⟨1, [], by simp, by simp⟩
    · have hrnil : rest = [] := dotdot_rest_nil k rest hrest (heq ▸ hlast)
      refine ⟨k + 1, [], ?_, by simp⟩
      rw [heq, hrnil, List.append_nil, List.append_nil, List.replicate_succ']

theorem normInv_dropLast (l : List String) (hinv : NormInv l)
    (hlast : l.getLast? ≠ some "..") : NormInv l.dropLast := by
  obtain ⟨k, rest, heq, hrest⟩ := hinv.dots
  refine ⟨fun c hc => hinv.clean c (List.dropLast_subset l hc),
    fun c hc => hinv.noslash c (List.dropLast_subset l hc), ?_⟩
  rcases hnil : l with _ | _
  · exact ⟨0, [], by simp, by simp⟩
  · rcases hr : rest with _ | ⟨r0, rs⟩
    · exfalso
      subst hr
      rw [List.append_nil] at heq
      have hk : k ≠ 0 := by
        intro hk0
        rw [hk0] at heq
        simp at heq
        rw [hnil] at heq
        simp at heq
      apply hlast
      rw [heq, List.getLast?_replicate, if_neg hk]
    · rw [← hnil]
      refine ⟨k, rest.dropLast, ?_, fun c hc => hrest c (List.dropLast_subset rest hc)⟩
      rw [heq, List.dropLast_append_of_ne_nil]
      rw [hr]
      simp

theorem normInv_append_plain (l : List String) (hinv : NormInv l) (comp : String)
    (h1 : comp ≠ "") (h2 : comp ≠ ".") (h3 : comp ≠ "..")
    (hcs : ∀ ch ∈ comp.data, ch ≠ '/') : NormInv (l ++ [comp]) := by
  obtain ⟨k, rest, heq, hrest⟩ := hinv.dots
  refine ⟨?_, ?_, ?_⟩
  · intro c hc
    rcases List.mem_append.mp hc with hc | hc
    · exact hinv.clean c hc
    · simp only [List.mem_singleton] at hc
      subst hc
      exact ⟨h1, h2⟩
  · intro c hc
    rcases List.mem_append.mp hc with hc | hc
    · exact hinv.noslash c hc
    · simp only [List.mem_singleton] at hc
      subst hc
      exact hcs
  · refine ⟨k, rest ++ [comp], ?_, ?_⟩
    · rw [heq, List.append_assoc]
    · intro c hc
      rcases List.mem_append.mp hc with hc | hc
      · exact hrest c hc
      · simp only [List.mem_singleton] at hc
        subst hc
        exact h3

theorem normStep_inv (acc : List String) (comp : String)
    (hinv : NormInv acc) (hcs : ∀ ch ∈ comp.data, ch ≠ '/') :
    NormInv (normStep acc comp) := by
  by_cases h1 : comp = "" ∨ comp = "."
  · simpa [normStep, h1] using hinv
  · by_cases h2 : comp = ".."
    · subst h2
      by_cases h3 : acc = []
      · rw [normStep, if_neg h1, if_pos rfl, if_pos h3]
        subst h3
        simpa using normInv_append_dotdot [] normInv_nil (Or.inl rfl)
      · by_cases h4 : acc.getLast? = some ".."
        · rw [normStep, if_neg h1, if_pos rfl, if_neg h3, if_pos h4]
          exact normInv_append_dotdot acc hinv (Or.inr h4)
        · rw [normStep, if_neg h1, if_pos rfl, if_neg h3, if_neg h4]
          exact normInv_dropLast acc hinv h4
    · rw [normStep, if_neg h1, if_neg h2]
      push_neg at h1
      exact normInv_append_plain acc hinv comp h1.1 h1.2 h2 hcs

theorem foldl_normStep_inv : ∀ (comps acc : List String),
    NormInv acc → (∀ c ∈ comps, ∀ ch ∈ c.data, ch ≠ '/') →
    NormInv (comps.foldl normStep acc)
  | [], _, h, _ => h
  | c :: cs, acc, h, hcs =>
    foldl_normStep_inv cs (normStep acc c)
      (normStep_inv acc c h (hcs c (List.mem_cons_self c cs)))
      (fun d hd => hcs d (List.mem_cons_of_mem c hd))

theorem normComps_inv (comps : List String)
    (hcs : ∀ c ∈ comps, ∀ ch ∈ c.data, ch ≠ '/') : NormInv (normComps comps) :=
  foldl_normStep_inv comps [] normInv_nil hcs

theorem foldl_absNormStep_clean : ∀ (l acc : List String),
    (∀ c ∈ l, c ≠ "" ∧ c ≠ "." ∧ c ≠ "..") →
    l.foldl absNormStep acc = acc ++ l
  | [], acc, _ => by simp
  | c :: cs, acc, h => by
    have hc := h c (List.mem_cons_self c cs)
    simp only [List.foldl_cons]
    rw [show absNormStep acc c = acc ++ [c] by
      rw [absNormStep, if_neg (by simp [hc.1, hc.2.1]), if_neg hc.2.2]]
    rw [foldl_absNormStep_clean cs (acc ++ [c])
      (fun d hd => h d (List.mem_cons_of_mem c hd))]
    simp

theorem splitOnCharList_joinComps :
    ∀ l : List String, l ≠ [] → (∀ c ∈ l, ∀ ch ∈ c.data, ch ≠ '/') →
      splitOnCharList '/' (joinCompsData l) = l.map String.data
  | [], h, _ => absurd rfl h
  | [c], _, hns => by
    simp only [joinCompsData, List.map]
    exact splitOnCharList_of_noslash '/' c.data
      (fun hm => hns c (List.mem_singleton_self c) '/' hm rfl)
  | c :: c2 :: rest, _, hns => by
    simp only [joinCompsData]
    rw [splitOnCharList_append '/' c.data (joinCompsData (c2 :: rest))
      (fun hm => hns c (List.mem_cons_self c (c2 :: rest)) '/' hm rfl)]
    rw [splitOnCharList_joinComps (c2 :: rest) (by simp)
      (fun d hd => hns d (List.mem_cons_of_mem c hd))]
    rfl

theorem pySplit_joinComps (l : List String) (hne : l ≠ [])
    (hns : ∀ c ∈ l, ∀ ch ∈ c.data, ch ≠ '/') :
    pySplit '/' ⟨joinCompsData l⟩ = l := by
  show (splitOnCharList '/' (joinCompsData l)).map (fun d => (⟨d⟩ : String)) = l
  rw [splitOnCharList_joinComps l hne hns]
  rw [List.map_map]
  exact List.map_id' l

theorem joinCompsData_startsWith_dotdot (t : List String) :
    pyStartsWithDotDot ⟨joinCompsData (".." :: t)⟩ = true := by
  cases t <;> rfl

theorem no_dotdot_of_not_startsWith (out : List String) (hinv : NormInv out)
    (hsw : pyStartsWithDotDot ⟨joinCompsData out⟩ = false) : ".." ∉ out := by
  obtain ⟨k, rest, heq, hrest⟩ := hinv.dots
  cases k with
  | zero =>
    rw [heq]
    simp only [List.replicate, List.nil_append]
    intro hmem
    exact hrest _ hmem rfl
  | succ n =>
    exfalso
    rw [heq, List.replicate_succ, List.cons_append] at hsw
    rw [joinCompsData_startsWith_dotdot] at hsw
    cases hsw

theorem joinCompsData_ne_nil (l : List String) (hne : l ≠ [])
    (hclean : ∀ c ∈ l, c ≠ "") : joinCompsData l ≠ [] := by
  rcases l with _ | ⟨c, t⟩
  · exact absurd rfl hne
  · rcases t with _ | ⟨c2, rest⟩
    · simp only [joinCompsData]
      intro hd
      apply hclean c (List.mem_singleton_self c)
      rcases c with ⟨d⟩
      simp only at hd
      rw [hd]
    · simp only [joinCompsData]
      intro hd
      rcases List.append_eq_nil.mp hd with ⟨_, h2⟩
      cases h2

theorem normpath_join (target : String)
    (hdot : ¬ normpath target = ".") :
    normComps (pySplit '/' target) ≠ [] ∧
    normpath target = ⟨joinCompsData (normComps (pySplit '/' target))⟩ := by
  by_cases hout : normComps (pySplit '/' target) = []
  · exfalso
    apply hdot
    rw [normpath, hout]
    rfl
  · refine ⟨hout, ?_⟩
    rw [normpath]
    have hinv := normComps_inv (pySplit '/' target)
      (fun c hc ch hch => by
        rcases List.mem_map.mp hc with ⟨seg, hseg, hcs⟩
        subst hcs
        exact fun h => splitOnCharList_noslash '/' target.data seg hseg (h ▸ hch))
    have hne := joinCompsData_ne_nil (normComps (pySplit '/' target)) hout
      (fun c hc => (hinv.clean c hc).1)
    rw [if_neg (by
      intro hstr
      apply hne
      have := congrArg String.data hstr
      simpa using this)]

theorem normpath_ne_empty (s : String) : normpath s ≠ "" := by
  simp only [normpath]
  by_cases h : (⟨joinCompsData (normComps (pySplit '/' s))⟩ : String) = ""
  · rw [if_pos h]
    decide
  · rw [if_neg h]
    exact h

/-- Claim C7, amended: over a canonical repository root, the path sandbox
fails exactly on an input that is empty, absolute, normalizes to ".", or
whose normalized form begins with the two characters ".." — which covers
every path escaping the root, but also rejects contained paths whose first
segment merely starts with two dots, such as ..hidden.md; every other input
is accepted, returning its normalized repo-relative form, whose
canonicalized joined path always lies at or under the root. In particular
"../outside", "/abs/path", "" and "." are all rejected. -/
theorem C7_path_sandbox (root : List String) (target : String)
    (hroot : ∀ c ∈ root, c ≠ "" ∧ c ≠ "." ∧ c ≠ "..") :
    (Validator._resolve_repo_relative_path root target = .ok (normpath target) ↔
      (¬ target = "" ∧ pyIsAbs target = false ∧ ¬ normpath target = "." ∧
        pyStartsWithDotDot (normpath target) = false)) ∧
    (∀ n, Validator._resolve_repo_relative_path root target = .ok n →
      n = normpath target ∧ Validator.containedUnderRoot root n = true) ∧
    Validator._resolve_repo_relative_path root "../outside"
      = .error "target_file escapes repository" ∧
    Validator._resolve_repo_relative_path root "/abs/path"
      = .error "target_file must be relative" ∧
    Validator._resolve_repo_relative_path root ""
      = .error "target_file is required" ∧
    Validator._resolve_repo_relative_path root "."
      = .error "target_file must reference content within the repository" := by
  have key : ¬ normpath target = "." →
      pyStartsWithDotDot (normpath target) = false →
      Validator.commonpathIsRoot root (Validator.resolvedComps root (normpath target)) = true := by
    intro h3 h4
    obtain ⟨hout, hjoin⟩ := normpath_join target h3
    have hinv := normComps_inv (pySplit '/' target)
      (fun c hc ch hch => by
        rcases List.mem_map.mp hc with ⟨seg, hseg, hcs⟩
        subst hcs
        exact fun h => splitOnCharList_noslash '/' target.data seg hseg (h ▸ hch))
    have hsplit : pySplit '/' (normpath target) = normComps (pySplit '/' target) := by
      rw [hjoin]
      exact pySplit_joinComps _ hout hinv.noslash
    have hnd : ".." ∉ normComps (pySplit '/' target) := by
      apply no_dotdot_of_not_startsWith _ hinv
      rw [← hjoin]
      exact h4
    have hclean : ∀ c ∈ normComps (pySplit '/' target), c ≠ "" ∧ c ≠ "." ∧ c ≠ ".." :=
      fun c hc => ⟨(hinv.clean c hc).1, (hinv.clean c hc).2, fun h => hnd (h ▸ hc)⟩
    rw [Validator.commonpathIsRoot]
    simp only [decide_eq_true_iff]
    rw [Validator.resolvedComps, hsplit, absNormComps, List.foldl_append]
    rw [foldl_absNormStep_clean root [] hroot]
    simp only [List.nil_append]
    rw [foldl_absNormStep_clean _ root hclean]
    exact List.take_left root _
  have hresolve : ¬ target = "" → pyIsAbs target = false →
      ¬ normpath target = "." → pyStartsWithDotDot (normpath target) = false →
      Validator._resolve_repo_relative_path root target = .ok (normpath target) := by
    intro h1 h2 h3 h4
    simp only [Validator._resolve_repo_relative_path]
    rw [if_neg h1, if_neg (by simp [h2])]
    rw [if_neg (by
      rintro (hh | hh)
      · exact normpath_ne_empty target hh
      · exact h3 hh)]
    rw [if_neg (by simp [h4]), if_pos (key h3 h4)]
  have hfwd : ∀ n, Validator._resolve_repo_relative_path root target = .ok n →
      (¬ target = "" ∧ pyIsAbs target = false ∧ ¬ normpath target = "." ∧
        pyStartsWithDotDot (normpath target) = false) ∧ n = normpath target := by
    intro n hok
    simp only [Validator._resolve_repo_relative_path] at hok
    by_cases h1 : target = ""
    · rw [if_pos h1] at hok
      cases hok
    rw [if_neg h1] at hok
    by_cases h2 : pyIsAbs target = true
    · rw [if_pos h2] at hok
      cases hok
    rw [if_neg h2] at hok
    by_cases h3 : normpath target = "" ∨ normpath target = "."
    · rw [if_pos h3] at hok
      cases hok
    rw [if_neg h3] at hok
    by_cases h4 : pyStartsWithDotDot (normpath target) = true
    · rw [if_pos h4] at hok
      cases hok
    rw [if_neg h4] at hok
    by_cases h5 : Validator.commonpathIsRoot root
        (Validator.resolvedComps root (normpath target)) = true
    · rw [if_pos h5] at hok
      injection hok with h6
      exact ⟨⟨h1, by simpa using h2, fun hh => h3 (Or.inr hh), by simpa using h4⟩, h6.symm⟩
    · rw [if_neg h5] at hok
      cases hok
  refine ⟨⟨fun hok => (hfwd _ hok).1, fun ⟨h1, h2, h3, h4⟩ => hresolve h1 h2 h3 h4⟩,
    ?_, rfl, rfl, rfl, rfl⟩
  intro n hok
  obtain ⟨⟨h1, h2, h3, h4⟩, hn⟩ := hfwd n hok
  subst hn
  exact ⟨rfl, key h3 h4⟩

/-- Claim C7, counterexample: the relative path ..hidden.md stays fully under
the repository root (its canonicalized joined path is root/..hidden.md, which
the commonpath containment test accepts), yet the sandbox rejects it, because
the normalized string begins with the two characters ".." without containing
any parent-directory segment. -/
theorem C7_counterexample :
    Validator._resolve_repo_relative_path ["repo"] "..hidden.md"
      = .error "target_file escapes repository" ∧
    Validator.containedUnderRoot ["repo"] "..hidden.md" = true ∧
    Validator.resolvedComps ["repo"] "..hidden.md" = ["repo", "..hidden.md"] :=
  ⟨rfl, rfl, rfl⟩

/-- Claim C7, witness: the amended statement evaluated at the concrete root
[repo], showing the contained path docs/guide.md accepted in normalized
form. -/
theorem C7_witness :
    (∀ c ∈ (["repo"] : List String), c ≠ "" ∧ c ≠ "." ∧ c ≠ "..") ∧
    Validator._resolve_repo_relative_path ["repo"] "docs/guide.md"
      = .ok (normpath "docs/guide.md") :=
  ⟨by decide,
    (C7_path_sandbox ["repo"] "docs/guide.md" (by decide)).1.mpr
      ⟨by decide, rfl, by decide, rfl⟩⟩
